import Mathlib

/-
Verification of the focus-pomodoro-timer engine (src/src/App.tsx).

The App component is a state machine over the React state variables
phase, timeLeft, isRunning, completedPomodoros, flash and the mutable
ref autoRestartRef.  We embed that state directly, plus a counter
`beeps` recording how many times `playBeep()` has been invoked (the
audio cue is called exactly once per natural expiry, so the counter
lets us state claims about the audio cue).

React semantics: after every event handler or interval/timeout
callback mutates state, the effects re-run until the state settles.
Only two effects mutate engine state:
  - the expiry effect (App.tsx lines 55-71): fires when
    timeLeft == 0 && isRunning, stops the timer, sets the
    auto-restart ref, plays the beep, activates the flash, switches
    phase and resets timeLeft (incrementing completedPomodoros when
    the break phase expired);
  - the auto-restart effect (App.tsx lines 73-77): fires when the ref
    is set and the timer is stopped, clears the ref and restarts.
`settle` applies the expiry effect then the auto-restart effect, in
the order React runs them; after one pass the new timeLeft is a full
(positive) duration and the ref is clear, so no further effect fires
and one pass is the complete flush.
-/

namespace Pomodoro

/-- Phase from App.tsx: type Phase = 'focus' | 'break' ('break' is a Lean
keyword, so the break phase is named `rest`). -/
inductive Phase where
  | focus
  | rest
deriving DecidableEq

/-- FOCUS_DURATION = 25 * 60 (App.tsx line 6). -/
def FOCUS_DURATION : Nat := 25 * 60

/-- BREAK_DURATION = 5 * 60 (App.tsx line 7). -/
def BREAK_DURATION : Nat := 5 * 60

/-- The React state of the App component, plus the autoRestartRef ref and
the instrumentation counter `beeps` counting playBeep() invocations. -/
structure TimerState where
  phase : Phase
  timeLeft : Nat
  isRunning : Bool
  completedPomodoros : Nat
  flash : Bool
  autoRestart : Bool
  beeps : Nat
deriving DecidableEq

/-- initialDuration = isFocus ? FOCUS_DURATION : BREAK_DURATION. -/
def durationOf : Phase → Nat
  | .focus => FOCUS_DURATION
  | .rest => BREAK_DURATION

/-- The initial state: useState('focus'), useState(FOCUS_DURATION),
useState(false), useState(0), useState(false), useRef(false). -/
def init : TimerState :=
  { phase := .focus, timeLeft := FOCUS_DURATION, isRunning := false,
    completedPomodoros := 0, flash := false, autoRestart := false, beeps := 0 }

/-- The countdown interval callback, setTimeLeft(t => (t > 0 ? t - 1 : 0)),
guarded by isRunning because the interval only exists while isRunning is
true (App.tsx lines 47-53). -/
def tickUpdate (s : TimerState) : TimerState :=
  if s.isRunning then
    { s with timeLeft := if 0 < s.timeLeft then s.timeLeft - 1 else 0 }
  else s

/-- The natural-expiry effect (App.tsx lines 55-71): when timeLeft is 0
while running, stop, set the auto-restart ref, play the beep, activate
the flash, and switch to the opposite phase at its full duration,
incrementing completedPomodoros when the break phase expired. -/
def expiryEffect (s : TimerState) : TimerState :=
  if s.timeLeft = 0 ∧ s.isRunning then
    let s1 := { s with isRunning := false, autoRestart := true,
                       beeps := s.beeps + 1, flash := true }
    match s.phase with
    | .focus => { s1 with phase := .rest, timeLeft := BREAK_DURATION }
    | .rest => { s1 with completedPomodoros := s1.completedPomodoros + 1,
                         phase := .focus, timeLeft := FOCUS_DURATION }
  else s

/-- The auto-restart effect (App.tsx lines 73-77): when the ref is set and
the timer is stopped, clear the ref and start running. -/
def autoRestartEffect (s : TimerState) : TimerState :=
  if s.autoRestart ∧ s.isRunning = false then
    { s with autoRestart := false, isRunning := true }
  else s

/-- One pass of the React effect flush: the expiry effect, then the
auto-restart effect (their declaration order in App.tsx). -/
def settle (s : TimerState) : TimerState := autoRestartEffect (expiryEffect s)

/-- handleStartPause = () => setIsRunning(r => !r) (App.tsx line 94). -/
def handleStartPause (s : TimerState) : TimerState :=
  { s with isRunning := !s.isRunning }

/-- handleSkip (App.tsx lines 96-105): clear the ref and switch to the
opposite phase at its full duration; isRunning is untouched. -/
def handleSkip (s : TimerState) : TimerState :=
  match s.phase with
  | .focus => { s with autoRestart := false, phase := .rest,
                       timeLeft := BREAK_DURATION }
  | .rest => { s with autoRestart := false, phase := .focus,
                      timeLeft := FOCUS_DURATION }

/-- handleReset (App.tsx lines 107-111): clear the ref, stop, and restore
the current phase's full duration. -/
def handleReset (s : TimerState) : TimerState :=
  { s with autoRestart := false, isRunning := false,
           timeLeft := durationOf s.phase }

/-- The flash-clear timeout callback, setFlash(false) (App.tsx lines
79-83).  No other effect depends on flash, so no flush follows. -/
def flashClear (s : TimerState) : TimerState := { s with flash := false }

/-- The discrete events the engine processes: a 1-second tick, the three
user commands, and the 800ms flash-clear timeout. -/
inductive Event where
  | tick
  | startPause
  | skip
  | reset
  | flashTimeout
deriving DecidableEq

/-- Event semantics: the callback or handler from App.tsx followed by the
effect flush. -/
def step : Event → TimerState → TimerState
  | .tick, s => settle (tickUpdate s)
  | .startPause, s => settle (handleStartPause s)
  | .skip, s => settle (handleSkip s)
  | .reset, s => settle (handleReset s)
  | .flashTimeout, s => flashClear s

/-- Iterated tick events: ticks (n+1) s delivers n ticks and then one
more. -/
def ticks : Nat → TimerState → TimerState
  | 0, s => s
  | n + 1, s => step .tick (ticks n s)

/-- The opposite of a phase, for stating the skip command's effect. -/
def oppositePhase : Phase → Phase
  | .focus => .rest
  | .rest => .focus

/-- The states the engine can actually be in: the initial state and
everything reachable from it by events. -/
inductive Reachable : TimerState → Prop where
  | init : Reachable init
  | step (e : Event) {s : TimerState} : Reachable s → Reachable (step e s)

/-- startLabel = isRunning ? pause : timeLeft === initialDuration ? start
: resume (App.tsx line 92). -/
def startLabel (s : TimerState) : String :=
  if s.isRunning then "暂停"
  else if s.timeLeft = durationOf s.phase then "开始"
  else "继续"

/-- cyclePos = completedPomodoros % 4; filledDots = completedPomodoros > 0
&& cyclePos === 0 ? 4 : cyclePos (App.tsx lines 113-114). -/
def filledDots (completedPomodoros : Nat) : Nat :=
  let cyclePos := completedPomodoros % 4
  if 0 < completedPomodoros ∧ cyclePos = 0 then 4 else cyclePos

/-- The inductive invariant of the settled states: timeLeft is positive,
bounded by the current phase's full duration, and the auto-restart ref is
clear. -/
def Inv (s : TimerState) : Prop :=
  0 < s.timeLeft ∧ s.timeLeft ≤ durationOf s.phase ∧ s.autoRestart = false

/-- The effect flush does nothing when timeLeft is nonzero and the
auto-restart ref is clear. -/
lemma settle_noop (s : TimerState) (h1 : s.timeLeft ≠ 0) (h2 : s.autoRestart = false) :
    settle s = s := by
  simp [settle, expiryEffect, autoRestartEffect, h1, h2]

/-- Natural expiry of the focus phase: the flush stops the timer, beeps,
flashes, moves to the break phase at full duration, and auto-restarts. -/
lemma settle_expiry_focus (s : TimerState) (hp : s.phase = .focus)
    (h0 : s.timeLeft = 0) (hr : s.isRunning = true) :
    settle s = { s with phase := .rest, timeLeft := BREAK_DURATION,
                        isRunning := true, autoRestart := false,
                        flash := true, beeps := s.beeps + 1 } := by
  simp [settle, expiryEffect, autoRestartEffect, h0, hr, hp]

/-- Natural expiry of the break phase: as for focus, but the move is back
to the focus phase and completedPomodoros is incremented. -/
lemma settle_expiry_rest (s : TimerState) (hp : s.phase = .rest)
    (h0 : s.timeLeft = 0) (hr : s.isRunning = true) :
    settle s = { s with phase := .focus, timeLeft := FOCUS_DURATION,
                        isRunning := true, autoRestart := false,
                        flash := true, beeps := s.beeps + 1,
                        completedPomodoros := s.completedPomodoros + 1 } := by
  simp [settle, expiryEffect, autoRestartEffect, h0, hr, hp]

/-- Both full durations are positive. -/
lemma durationOf_pos (p : Phase) : 0 < durationOf p := by
  cases p <;> simp [durationOf, FOCUS_DURATION, BREAK_DURATION]

/-- Each event preserves the settled-state invariant. -/
lemma inv_step (e : Event) (s : TimerState) (h : Inv s) : Inv (step e s) := by
  obtain ⟨htpos, htle, har⟩ := h
  cases e
  case tick =>
    by_cases hr : s.isRunning
    · by_cases h1 : s.timeLeft = 1
      · have h0 : (tickUpdate s).timeLeft = 0 := by
          simp [tickUpdate, hr, htpos, h1]
        cases hp : s.phase
        · rw [show step .tick s = settle (tickUpdate s) from rfl,
              settle_expiry_focus _ (by simp [tickUpdate, hr, hp]) h0
                (by simp [tickUpdate, hr])]
          exact ⟨by simp [BREAK_DURATION], by simp [durationOf], rfl⟩
        · rw [show step .tick s = settle (tickUpdate s) from rfl,
              settle_expiry_rest _ (by simp [tickUpdate, hr, hp]) h0
                (by simp [tickUpdate, hr])]
          exact ⟨by simp [FOCUS_DURATION], by simp [durationOf], rfl⟩
      · have ht : (tickUpdate s).timeLeft = s.timeLeft - 1 := by
          simp [tickUpdate, hr, htpos]
        have hne : (tickUpdate s).timeLeft ≠ 0 := by rw [ht]; omega
        rw [show step .tick s = settle (tickUpdate s) from rfl,
            settle_noop _ hne (by simp [tickUpdate, hr, har])]
        refine ⟨Nat.pos_of_ne_zero hne, ?_, by simp [tickUpdate, hr, har]⟩
        have hph : durationOf (tickUpdate s).phase = durationOf s.phase := by
          simp [tickUpdate, hr]
        rw [ht, hph]
        omega
    · rw [show step .tick s = settle (tickUpdate s) from rfl]
      simp [tickUpdate, hr]
      rw [settle_noop _ (by omega) har]
      exact ⟨htpos, htle, har⟩
  case startPause =>
    rw [show step .startPause s = settle (handleStartPause s) from rfl,
        settle_noop _ (by simp [handleStartPause]; omega)
          (by simp [handleStartPause, har])]
    exact ⟨htpos, htle, har⟩
  case skip =>
    rw [show step .skip s = settle (handleSkip s) from rfl]
    cases hp : s.phase
    · rw [settle_noop _ (by simp [handleSkip, hp, BREAK_DURATION])
          (by simp [handleSkip, hp])]
      exact ⟨by simp [handleSkip, hp, BREAK_DURATION],
             by simp [handleSkip, hp, durationOf],
             by simp [handleSkip, hp]⟩
    · rw [settle_noop _ (by simp [handleSkip, hp, FOCUS_DURATION])
          (by simp [handleSkip, hp])]
      exact ⟨by simp [handleSkip, hp, FOCUS_DURATION],
             by simp [handleSkip, hp, durationOf],
             by simp [handleSkip, hp]⟩
  case reset =>
    rw [show step .reset s = settle (handleReset s) from rfl,
        settle_noop _ (by have := durationOf_pos s.phase; simp [handleReset]; omega)
          (by simp [handleReset])]
    exact ⟨by have := durationOf_pos s.phase; simp [handleReset]; omega,
           by simp [handleReset], by simp [handleReset]⟩
  case flashTimeout =>
    exact ⟨htpos, htle, har⟩

/-- Every reachable state satisfies the invariant. -/
lemma reachable_inv {s : TimerState} (h : Reachable s) : Inv s := by
  induction h with
  | init =>
    exact ⟨by simp [init, FOCUS_DURATION], by simp [init, durationOf], rfl⟩
  | step e _ ih => exact inv_step e _ ih

/-- The skip event is exactly its handler: the handler clears the
auto-restart ref and sets timeLeft to a full (positive) duration, so the
effect flush that follows it does nothing, whatever the state was. -/
lemma step_skip_eq (s : TimerState) : step .skip s = handleSkip s := by
  cases hp : s.phase
  · exact settle_noop _ (by simp [handleSkip, hp, BREAK_DURATION])
      (by simp [handleSkip, hp])
  · exact settle_noop _ (by simp [handleSkip, hp, FOCUS_DURATION])
      (by simp [handleSkip, hp])

/-- The reset event is exactly its handler, for the same reason. -/
lemma step_reset_eq (s : TimerState) : step .reset s = handleReset s :=
  settle_noop _
    (by have := durationOf_pos s.phase; simp [handleReset]; omega)
    (by simp [handleReset])

/-- On a state with nonzero timeLeft and a clear auto-restart ref (as all
settled states are), the start/pause event is exactly its handler. -/
lemma step_startPause_eq (s : TimerState) (h1 : s.timeLeft ≠ 0)
    (h2 : s.autoRestart = false) :
    step .startPause s = handleStartPause s :=
  settle_noop _ (by simpa [handleStartPause] using h1)
    (by simpa [handleStartPause] using h2)

/-- While running with a clear ref, k ticks just subtract k from timeLeft
as long as the countdown has not yet reached zero. -/
lemma ticks_run (k : Nat) (s : TimerState) (hr : s.isRunning = true)
    (har : s.autoRestart = false) (hk : k < s.timeLeft) :
    ticks k s = { s with timeLeft := s.timeLeft - k } := by
  induction k with
  | zero => simp [ticks]
  | succ k ih =>
    have hik : ticks k s = { s with timeLeft := s.timeLeft - k } :=
      ih (by omega)
    have hlt : k < s.timeLeft := by omega
    have htu : tickUpdate (ticks k s) =
        { s with timeLeft := s.timeLeft - (k + 1) } := by
      rw [hik]
      simp [tickUpdate, hr, hlt]
      omega
    have hne : ({ s with timeLeft := s.timeLeft - (k + 1) } :
        TimerState).timeLeft ≠ 0 := by
      simp
      omega
    calc ticks (k + 1) s = settle (tickUpdate (ticks k s)) := rfl
      _ = { s with timeLeft := s.timeLeft - (k + 1) } := by
          rw [htu, settle_noop _ hne (by simp [har])]

/-- Claim C1: in every reachable state of the engine, timeLeft lies
between 0 and the current phase's full duration (1500 for focus, 300 for
break); reachability quantifies over every operation (tick, start/pause,
skip, reset, flash timeout, and the expiry baked into tick), so the bound
is preserved by all of them. -/
theorem timeLeft_within_bounds (s : TimerState) (h : Reachable s) :
    0 ≤ s.timeLeft ∧ s.timeLeft ≤ durationOf s.phase :=
  ⟨Nat.zero_le _, (reachable_inv h).2.1⟩

/-- Witness for C1: the bound holds at the initial state. -/
theorem timeLeft_within_bounds_witness :
    0 ≤ init.timeLeft ∧ init.timeLeft ≤ durationOf init.phase :=
  timeLeft_within_bounds init Reachable.init

/-- Claim C2: from the initial state (focus, 1500, not running) the start
command followed by 1500 ticks produces exactly one natural expiry: the
settled state is (break, 300, running) with the beep played exactly once,
the flash active, and completedPomodoros unchanged; the flash timeout
then clears the flash and nothing else. -/
theorem focus_expiry_run :
    ticks 1500 (step .startPause init) =
      { phase := .rest, timeLeft := BREAK_DURATION, isRunning := true,
        completedPomodoros := 0, flash := true, autoRestart := false,
        beeps := 1 } ∧
    step .flashTimeout (ticks 1500 (step .startPause init)) =
      { phase := .rest, timeLeft := BREAK_DURATION, isRunning := true,
        completedPomodoros := 0, flash := false, autoRestart := false,
        beeps := 1 } := by
  have hs1 : step .startPause init =
      { phase := .focus, timeLeft := FOCUS_DURATION, isRunning := true,
        completedPomodoros := 0, flash := false, autoRestart := false,
        beeps := 0 } := by decide
  have h1499 : ticks 1499 (step .startPause init) =
      { phase := .focus, timeLeft := 1, isRunning := true,
        completedPomodoros := 0, flash := false, autoRestart := false,
        beeps := 0 } := by
    rw [hs1, ticks_run 1499 _ rfl rfl (by decide)]
    decide
  have h15 : (1500 : Nat) = 1499 + 1 := rfl
  have hmain : ticks 1500 (step .startPause init) =
      { phase := .rest, timeLeft := BREAK_DURATION, isRunning := true,
        completedPomodoros := 0, flash := true, autoRestart := false,
        beeps := 1 } := by
    rw [h15, show ticks (1499 + 1) (step .startPause init) =
          step .tick (ticks 1499 (step .startPause init)) from rfl,
        h1499]
    decide
  exact ⟨hmain, by rw [hmain]; decide⟩

/-- Claim C3: a natural expiry of the break phase (a tick taking timeLeft
from 1 to 0 while running in break) increments completedPomodoros by
exactly 1 and settles, via the auto-restart, in (focus, 1500, running);
and neither the skip command nor the reset command ever changes
completedPomodoros. -/
theorem break_expiry_counts (s t : TimerState) (hp : s.phase = .rest)
    (hr : s.isRunning = true) (h1 : s.timeLeft = 1) :
    step .tick s =
      { s with phase := .focus, timeLeft := FOCUS_DURATION,
               isRunning := true,
               completedPomodoros := s.completedPomodoros + 1,
               flash := true, autoRestart := false,
               beeps := s.beeps + 1 } ∧
    (step .skip t).completedPomodoros = t.completedPomodoros ∧
    (step .reset t).completedPomodoros = t.completedPomodoros := by
  refine ⟨?_, ?_, ?_⟩
  · have htu : tickUpdate s = { s with timeLeft := 0 } := by
      simp [tickUpdate, hr, h1]
    rw [show step .tick s = settle (tickUpdate s) from rfl, htu,
        settle_expiry_rest _ (by simpa using hp) rfl (by simpa using hr)]
  · rw [step_skip_eq]
    cases ht : t.phase <;> simp [handleSkip, ht]
  · rw [step_reset_eq]
    simp [handleReset]

/-- Witness for C3: the break-expiry tick at a concrete state, and the
skip/reset conjuncts at the initial state. -/
theorem break_expiry_counts_witness :
    step .tick ⟨.rest, 1, true, 0, false, false, 0⟩ =
      ⟨.focus, FOCUS_DURATION, true, 1, true, false, 1⟩ ∧
    (step .skip init).completedPomodoros = init.completedPomodoros ∧
    (step .reset init).completedPomodoros = init.completedPomodoros :=
  break_expiry_counts ⟨.rest, 1, true, 0, false, false, 0⟩ init rfl rfl rfl

/-- Claim C4: for every state, skip switches to the opposite phase at
that phase's full duration (300 leaving focus, 1500 leaving break),
preserves isRunning and completedPomodoros exactly, and triggers neither
the beep nor the flash. -/
theorem skip_spec (s : TimerState) :
    (step .skip s).phase = oppositePhase s.phase ∧
    (step .skip s).timeLeft = durationOf (oppositePhase s.phase) ∧
    (step .skip s).isRunning = s.isRunning ∧
    (step .skip s).completedPomodoros = s.completedPomodoros ∧
    (step .skip s).beeps = s.beeps ∧
    (step .skip s).flash = s.flash := by
  rw [step_skip_eq]
  cases hp : s.phase <;> simp [handleSkip, oppositePhase, durationOf, hp]

/-- Claim C5: for every state, reset stops the timer and restores the
current phase's full duration, leaving phase and completedPomodoros
unchanged and triggering neither the beep nor the flash. -/
theorem reset_spec (s : TimerState) :
    (step .reset s).isRunning = false ∧
    (step .reset s).timeLeft = durationOf s.phase ∧
    (step .reset s).phase = s.phase ∧
    (step .reset s).completedPomodoros = s.completedPomodoros ∧
    (step .reset s).beeps = s.beeps ∧
    (step .reset s).flash = s.flash := by
  rw [step_reset_eq]
  simp [handleReset]

/-- Claim C6: the countdown callback's effect on timeLeft is exactly:
decrement clamped at 0 when running, unchanged when not running (the
interval does not exist while stopped). -/
theorem tick_timeLeft_spec (s : TimerState) :
    (tickUpdate s).timeLeft =
      if s.isRunning then
        (if 0 < s.timeLeft then s.timeLeft - 1 else 0)
      else s.timeLeft := by
  cases hr : s.isRunning <;> simp [tickUpdate, hr]

/-- Claim C7: the button label is the pause label exactly when running,
the start label exactly when stopped at the full duration of the current
phase, and the resume label in every other case. -/
theorem startLabel_spec (s : TimerState) :
    (startLabel s = "暂停" ↔ s.isRunning = true) ∧
    (startLabel s = "开始" ↔
      s.isRunning = false ∧ s.timeLeft = durationOf s.phase) ∧
    (startLabel s = "继续" ↔
      s.isRunning = false ∧ s.timeLeft ≠ durationOf s.phase) := by
  cases hr : s.isRunning
  · by_cases ht : s.timeLeft = durationOf s.phase <;>
      simp [startLabel, hr, ht]
  · simp [startLabel, hr]

/-- Claim C8: filledDots is 4 when completedPomodoros is a positive
multiple of 4 and completedPomodoros mod 4 otherwise; in particular its
values at 0,1,2,3,4,5 are 0,1,2,3,4,1. -/
theorem filledDots_spec :
    (∀ c : Nat, filledDots c = if 0 < c ∧ c % 4 = 0 then 4 else c % 4) ∧
    filledDots 0 = 0 ∧ filledDots 1 = 1 ∧ filledDots 2 = 2 ∧
    filledDots 3 = 3 ∧ filledDots 4 = 4 ∧ filledDots 5 = 1 :=
  ⟨fun _ => rfl, rfl, rfl, rfl, rfl, rfl, rfl⟩

/-- Claim C9: reset is idempotent: applying it twice produces exactly the
state produced by applying it once. -/
theorem reset_idempotent (s : TimerState) :
    step .reset (step .reset s) = step .reset s := by
  simp only [step_reset_eq]
  simp [handleReset]

/-- Claim C10: on every reachable state, the start/pause command only
negates isRunning: phase, timeLeft, completedPomodoros and the flash are
all untouched. -/
theorem startPause_frame (s : TimerState) (h : Reachable s) :
    (step .startPause s).isRunning = !s.isRunning ∧
    (step .startPause s).phase = s.phase ∧
    (step .startPause s).timeLeft = s.timeLeft ∧
    (step .startPause s).completedPomodoros = s.completedPomodoros ∧
    (step .startPause s).flash = s.flash := by
  obtain ⟨htpos, -, har⟩ := reachable_inv h
  rw [step_startPause_eq s (by omega) har]
  simp [handleStartPause]

/-- Witness for C10: the frame property at the initial state. -/
theorem startPause_frame_witness :
    (step .startPause init).isRunning = !init.isRunning ∧
    (step .startPause init).phase = init.phase ∧
    (step .startPause init).timeLeft = init.timeLeft ∧
    (step .startPause init).completedPomodoros = init.completedPomodoros ∧
    (step .startPause init).flash = init.flash :=
  startPause_frame init Reachable.init

end Pomodoro
